import Mathlib

/-!
Verification model of `sd-open-paint-tool` (`scripts/extension.py`).

The extension is a Stable-Diffusion-WebUI plugin that opens a selected
gallery image in an external paint editor.  This file is a shallow
embedding of the pure/decidable core of the Python code: configuration
loading (`load_config`), filename sanitisation (`sanitize_filename`),
export-directory resolution (`resolve_export_dir`), the `Exporter`
methods (`next_name`, `ext`, `export_image`, `copy_file`), the
gallery-item normaliser (`ensure_path_from_gallery_item`) and the click
handler (`open_in_editor`).

Modelling conventions:
- Python strings are `List Char` (`Str`).
- Dynamically-typed Python values are `PyVal`; the Python builtins the
  code applies to them (`int()`, `bool()`, `str()`, `.upper()`,
  `.strip()`) are modelled as functions on `PyVal` / `Str`.  `int()` of
  a string follows Python's integer-literal grammar (sign, digits,
  digit-group underscores); `str.upper` / `str.strip` are modelled on
  the ASCII range, which covers every string the code compares against.
  Non-integral JSON numbers (Python floats) are outside the model.
- The filesystem is an `FS` value: a list of existing directories and a
  list of (path, mtime) regular files; `os.path` functions are modelled
  with POSIX path syntax.
- Fallible operations return `Except Unit`; `.error ()` models a Python
  exception reaching that point.
- Ambient nondeterminism (the host settings store, the formatted
  timestamp, the clock, process-launch outcomes, the platform) is an
  explicit `Env` record passed to the functions that consult it.
-/

/-- Python `str`, modelled as a list of characters. -/
abbrev Str := List Char

/-- Dynamically-typed Python values reachable in this program: JSON
scalars and containers plus in-memory PIL images.  (Non-integral JSON
numbers, i.e. Python floats, are not modelled.) -/
inductive PyVal where
  | vNone
  | vBool (b : Bool)
  | vInt (n : Int)
  | vStr (s : Str)
  | vList (xs : List PyVal)
  | vDict (xs : List (Str × PyVal))
  | vImage (mode : Str)

/-- A Python dict with string keys (the shape of the parsed
`config.json` and of the `Exporter`/`PaintTool` `self.cfg`), as an
association list. -/
abbrev Cfg := List (Str × PyVal)

/-- Python truthiness (`bool(v)` / an `if v:` test). -/
def pyTruthy : PyVal → Bool
  | .vNone => false
  | .vBool b => b
  | .vInt n => n != 0
  | .vStr s => !s.isEmpty
  | .vList xs => !xs.isEmpty
  | .vDict xs => !xs.isEmpty
  | .vImage _ => true

/-- Python `a or b` for a value `a` and default `b` (first operand when
truthy, otherwise the second). -/
def pyOr (a b : PyVal) : PyVal := if pyTruthy a then a else b

/-- Model of `dict.get(k, d)` on a string-keyed dict. -/
def cfgGet (cfg : Cfg) (k : Str) (d : PyVal) : PyVal := (cfg.lookup k).getD d

/-- Model of `dict.get(k)` (default `None`). -/
def cfgGetN (cfg : Cfg) (k : Str) : PyVal := (cfg.lookup k).getD .vNone

/-- The whitespace characters stripped by `str.strip()` (ASCII part). -/
def isPyWs (c : Char) : Bool :=
  c = ' ' || c = '\t' || c = '\n' || c = '\r' || c = '\x0b' || c = '\x0c'

/-- Model of `str.strip()`: drop whitespace from both ends (ASCII model). -/
def stripWs (s : Str) : Str :=
  ((s.dropWhile isPyWs).reverse.dropWhile isPyWs).reverse

/-- Model of `str.upper()` (ASCII model; `Char.toUpper` maps `a`-`z` only). -/
def upperAscii (s : Str) : Str := s.map Char.toUpper

/-- Fuel-driven decimal rendering: most-significant digit first.  The
fuel only bounds the recursion depth so that the definition is
structural (and thus kernel-computable). -/
def natDecAux : Nat → Nat → Str
  | 0, _ => []
  | fuel + 1, n =>
      if n < 10 then [Nat.digitChar n]
      else natDecAux fuel (n / 10) ++ [Nat.digitChar (n % 10)]

/-- Decimal digit string of a natural number (`str()` of a non-negative
Python int). -/
def natDec (n : Nat) : Str := natDecAux (n + 1) n

/-- Model of `str()` of a Python int. -/
def intRepr (n : Int) : Str :=
  if n < 0 then '-' :: natDec n.natAbs else natDec n.toNat

/-- Does a digit string (the part after the optional sign) match
Python's integer-literal grammar after the first digit: digits with
single underscores allowed only between digits? -/
def intLitTail : Str → Bool
  | [] => true
  | '_' :: c :: rest => c.isDigit && intLitTail (c :: rest)
  | '_' :: [] => false
  | c :: rest => c.isDigit && intLitTail rest

/-- Digit-part check for `int(str)`: non-empty, starts with a digit,
underscores only between digits. -/
def intLitBody (s : Str) : Bool :=
  match s with
  | c :: rest => c.isDigit && intLitTail rest
  | [] => false

/-- Numeric value of a valid digit-with-underscores string. -/
def intLitVal (s : Str) : Nat :=
  s.foldl (fun a c => if c = '_' then a else a * 10 + (c.toNat - 48)) 0

/-- Model of `int(str)`: strip whitespace, optional sign, digits (with
digit-group underscores). Raises `ValueError` otherwise. -/
def parseIntStr (s : Str) : Except Unit Int :=
  let t := stripWs s
  let sb : Int × Str :=
    match t with
    | '+' :: r => (1, r)
    | '-' :: r => (-1, r)
    | r => (1, r)
  if intLitBody sb.2 then .ok (sb.1 * (intLitVal sb.2 : Int)) else .error ()

/-- The `int()` builtin on a Python value (`bool` is an int subclass;
anything non-numeric raises). -/
def pyIntE : PyVal → Except Unit Int
  | .vBool b => .ok (if b then 1 else 0)
  | .vInt n => .ok n
  | .vStr s => parseIntStr s
  | _ => .error ()

/-- Python `repr()`-style quoting of a string: single quotes, escaping
backslash and the quote character (adaptive quote choice and control
escapes are not modelled; no claim reads these renderings). -/
def quoteStr (s : Str) : Str :=
  let q : Char := Char.ofNat 39
  let esc : Str := s.flatMap fun c =>
    if c = '\\' || c = q then ['\\', c] else [c]
  q :: esc ++ [q]

/-- Comma-separated join used by container `repr`. -/
def commaJoin : List Str → Str
  | [] => []
  | [x] => x
  | x :: xs => x ++ ',' :: ' ' :: commaJoin xs

mutual

/-- Model of `repr()` of a Python value (scalars render as `str()` does;
strings are quoted; containers recurse). -/
def pyReprFn : PyVal → Str
  | .vNone => "None".toList
  | .vBool true => "True".toList
  | .vBool false => "False".toList
  | .vInt n => intRepr n
  | .vStr s => quoteStr s
  | .vList xs => '[' :: commaJoin (pyReprs xs) ++ [']']
  | .vDict xs => Char.ofNat 123 :: commaJoin (pyReprPairs xs) ++ [Char.ofNat 125]
  | .vImage _ => "<PIL.Image.Image>".toList

def pyReprs : List PyVal → List Str
  | [] => []
  | v :: vs => pyReprFn v :: pyReprs vs

def pyReprPairs : List (Str × PyVal) → List Str
  | [] => []
  | (k, v) :: xs => (quoteStr k ++ ':' :: ' ' :: pyReprFn v) :: pyReprPairs xs

end

/-- The `str()` builtin: identity on strings, `repr`-style rendering of
everything else (which is what Python's `str()` does for these types). -/
def pyStrFn : PyVal → Str
  | .vStr s => s
  | v => pyReprFn v

/-! ### Small utilities (`extension.py` lines 51-61) -/

/-- Model of `strip_query(p)`: drop a trailing `?...` query suffix
(`p.split("?", 1)[0] if p else p`). -/
def stripQuery (p : Str) : Str := p.takeWhile (fun c => c != '?')

/-- The characters the code strips from filenames:
`'<>:"/\\|?*\n\r\t'`. -/
def badChars : Str := "<>:\"/\\|?*\n\r\t".toList

/-- One step of the sanitisation loop: `name.replace(ch, "_")` for a
single character `ch`. -/
def replaceChar (ch : Char) (s : Str) : Str :=
  s.map fun x => if x = ch then '_' else x

/-- Model of `sanitize_filename(name)`: replace each disallowed character by an
underscore, one `str.replace` per character as in the source loop. -/
def sanitize_filename (name : Str) : Str :=
  badChars.foldl (fun acc ch => replaceChar ch acc) name

/-! ### POSIX path model (`os.path`) -/

/-- Model of `os.path.join(a, b)` (POSIX rules, two arguments). -/
def joinPath (a b : Str) : Str :=
  if b.head? = some '/' then b
  else if a.isEmpty then b
  else if a.getLast? = some '/' then a ++ b
  else a ++ '/' :: b

/-- Model of `os.path.splitext(p)` (POSIX): split off the extension at the last
dot of the basename, treating leading dots of the basename as part of
the root (`".bashrc"` has no extension). -/
def splitext (p : Str) : Str × Str :=
  let baseRev := p.reverse.takeWhile (fun c => c != '/')
  let dir := p.take (p.length - baseRev.length)
  let base := baseRev.reverse
  let lead := base.takeWhile (fun c => c = '.')
  let rest := base.dropWhile (fun c => c = '.')
  if rest.contains '.' then
    let extLen := (rest.reverse.takeWhile (fun c => c != '.')).length + 1
    (dir ++ lead ++ rest.take (rest.length - extLen),
     rest.drop (rest.length - extLen))
  else (p, [])

/-! ### Filesystem state -/

/-- Filesystem state: the set of existing directories and the existing
regular files with their modification times (epoch seconds). -/
structure FS where
  dirs : List Str
  files : List (Str × Int)
deriving Repr

/-- Model of `os.path.isdir`. -/
def FS.isdir (fs : FS) (p : Str) : Bool := fs.dirs.contains p

/-- Model of `os.path.isfile`. -/
def FS.isfile (fs : FS) (p : Str) : Bool := (fs.files.map Prod.fst).contains p

/-- Model of `os.path.exists`. -/
def FS.exists (fs : FS) (p : Str) : Bool := fs.isdir p || fs.isfile p

/-- Model of `os.makedirs(path, exist_ok=True)` (the body of `ensure_dir`):
raises when a regular file occupies the path, otherwise records the
directory. -/
def makedirs (fs : FS) (p : Str) : Except Unit FS :=
  if fs.isfile p then .error ()
  else .ok { fs with dirs := if fs.dirs.contains p then fs.dirs else p :: fs.dirs }

/-- Model of `shutil.copy2(src, dst)`: copy an existing regular file, preserving
its modification time; raises when `src` is a directory or missing. -/
def copy2 (fs : FS) (src dst : Str) : Except Unit FS :=
  if fs.dirs.contains src then .error ()
  else
    match fs.files.lookup src with
    | some mt => .ok { fs with files := (dst, mt) :: fs.files.filter (fun e => e.1 != dst) }
    | none => .error ()

/-- Test that `p` lies directly inside directory `dir` (one path component). -/
def inDir (dir p : Str) : Bool :=
  (dir ++ ['/']).isPrefixOf p && !((p.drop (dir.length + 1)).contains '/')

/-! ### Ambient environment -/

/-- Ambient, nondeterministic inputs of one click: the plugin's
installation root (`EXT_ROOT`), the host settings store
(`shared.opts`; `.error ()` when importing or reading it raises), the
formatted timestamp `datetime.now().strftime("%Y%m%d_%H%M%S")`, the
clock in epoch seconds, the platform flags, and the outcome of the two
process-launch sites (`subprocess.Popen` of the editor, and the
platform default opener). -/
structure Env where
  extRoot : Str
  opts : Except Unit (Str → Option Str)
  ts : Str
  nowEpoch : Int
  osWindows : Bool
  osDarwin : Bool
  launchOk : Bool
  openerOk : Bool

/-! ### Configuration (`extension.py` lines 67-111) -/

/-- Model of `DEFAULT_EDITOR`. -/
def defaultEditor : Str :=
  "C:\\Program Files\\CELSYS\\CLIP STUDIO 1.5\\CLIP STUDIO PAINT\\CLIPStudioPaint.exe".toList

/-- The default `export_naming` template. -/
def defaultNaming : Str := "{datetime}_{tab}_{index}_{counter}".toList

/-- Model of `_DEFAULT_CONFIG`. -/
def default_config (env : Env) : Cfg :=
  [ ("editor_path".toList, .vStr defaultEditor),
    ("export_dir".toList, .vStr (joinPath env.extRoot "exports".toList)),
    ("always_export_copy".toList, .vBool false),
    ("export_format".toList, .vStr "PNG".toList),
    ("export_jpeg_quality".toList, .vInt 95),
    ("export_naming".toList, .vStr defaultNaming),
    ("export_cleanup_days".toList, .vInt 0) ]

/-- Outcome of reading and parsing `config.json`: the file may be
absent, unreadable, malformed JSON, or parsed to a value. -/
inductive ConfigFile where
  | absent
  | unreadable
  | malformed
  | parsed (v : PyVal)

/-- The per-key coercion branch of `load_config`'s merge loop, for key
`k` with default value `dv` and user value `uv = user.get(k, dv)`. -/
def coerceKey (k : Str) (dv uv : PyVal) : PyVal :=
  if k = "export_cleanup_days".toList then
    match pyIntE uv with
    | .ok n => .vInt n
    | .error _ => dv
  else if k = "export_jpeg_quality".toList then
    match pyIntE uv with
    | .ok n => .vInt n
    | .error _ => dv
  else if k = "always_export_copy".toList then
    .vBool (pyTruthy uv)
  else if k = "export_format".toList then
    -- uv = str(uv).upper() if isinstance(uv, (str, bytes)) else dv;
    -- then replaced by "PNG" unless in ("PNG", "JPG")
    let u2 : PyVal := match uv with
      | .vStr s => .vStr (upperAscii s)
      | _ => dv
    match u2 with
    | .vStr s => if s = "PNG".toList || s = "JPG".toList then .vStr s else .vStr "PNG".toList
    | _ => .vStr "PNG".toList
  else
    -- string-valued keys: uv = str(uv) when the default is a str
    match dv with
    | .vStr _ => .vStr (pyStrFn uv)
    | _ => uv

/-- Model of `load_config()`: start from the defaults; when the file parses to a
dict, merge each recognised key through its coercion; any read/parse
failure (including a non-dict top level, whose `user.get` raises
`AttributeError` inside the same `try`) leaves the defaults. -/
def load_config (env : Env) (f : ConfigFile) : Cfg :=
  match f with
  | .parsed (.vDict user) =>
      (default_config env).map fun kv => (kv.1, coerceKey kv.1 kv.2 (cfgGet user kv.1 kv.2))
  | _ => default_config env

/-! ### Export-directory resolver (`extension.py` lines 137-164) -/

/-- Model of `resolve_export_dir(tab, cfg)`: user-configured directory when it
already exists; else the host store's per-tab or global samples
directory (created, with any exception while consulting or creating it
treated as unavailable); else the extension-local `exports` directory,
created (a creation failure here propagates). -/
def resolve_export_dir (env : Env) (tab : Str) (cfg : Cfg) (fs : FS) :
    Except Unit (Str × FS) :=
  -- 1) user-configured directory (must exist)
  let user_dir := stripWs (pyStrFn (pyOr (cfgGetN cfg "export_dir".toList) (.vStr [])))
  if !user_dir.isEmpty && fs.isdir user_dir then .ok (user_dir, fs)
  else
    -- 3) final fallback to extension-local exports
    let fallback :=
      match makedirs fs (joinPath env.extRoot "exports".toList) with
      | .ok fs1 => .ok (joinPath env.extRoot "exports".toList, fs1)
      | .error e => .error e
    -- 2) Forge/A1111 outdir for the tab, or global samples
    match env.opts with
    | .error _ => fallback
    | .ok attr =>
        let a := attr ("outdir_".toList ++ tab ++ "_samples".toList)
        let b := attr "outdir_samples".toList
        -- getattr(..., None) or getattr(..., None)
        let outdir := match a with
          | some s => if !s.isEmpty then some s else b
          | none => b
        match outdir with
        | some o =>
            if !o.isEmpty then
              match makedirs fs o with
              | .ok fs1 => .ok (o, fs1)
              | .error _ => fallback   -- ensure_dir raised inside the try
            else fallback
        | none => fallback

/-! ### Cleanup (`extension.py` lines 116-131) -/

/-- Model of `cleanup_dir(path, days)`: best-effort deletion of regular files
directly inside `path` whose mtime is older than `now - days` days; all
failures are swallowed, so the model is total. -/
def cleanup_dir (env : Env) (fs : FS) (path : Str) (days : Int) : FS :=
  if days ≤ 0 then fs
  else
    let cutoff := env.nowEpoch - days * 86400
    { fs with files := fs.files.filter (fun e => !(inDir path e.1 && e.2 < cutoff)) }

/-! ### Exporter (`extension.py` lines 170-218) -/

/-- Mutable `Exporter` instance state: the in-process counter and the
per-directory cleanup cache `_cleaned_dirs`. -/
structure XState where
  counter : Nat
  cleaned : List Str
deriving Repr

/-- Model of `Exporter._maybe_prepare_dir(path)`: `ensure_dir` then at most one
cleanup per directory per process lifetime.  Failures of `ensure_dir`
or of the `int()` coercion propagate (no handler here). -/
def maybe_prepare_dir (cfg : Cfg) (env : Env) (path : Str) (fs : FS) (xs : XState) :
    Except Unit (FS × XState) :=
  match makedirs fs path with
  | .error e => .error e
  | .ok fs1 =>
      match pyIntE (cfgGet cfg "export_cleanup_days".toList (.vInt 0)) with
      | .error e => .error e
      | .ok days =>
          if days > 0 && !xs.cleaned.contains path then
            .ok (cleanup_dir env fs1 path days, { xs with cleaned := path :: xs.cleaned })
          else .ok (fs1, xs)

/-- Model of `str.format` with named fields, processed character by character:
outside a field, `{{` and `}}` are literal braces, `{` opens a field
and a lone `}` raises; inside a field (accumulated reversed in `acc`),
`}` closes it and substitutes the named value, a missing name or an
unterminated field raises.  Format-spec suffixes (`:`/`!`) are not
modelled; no claim uses them. -/
def pyFormatAux (vals : List (Str × Str)) : Option Str → Str → Except Unit Str
  | none, [] => .ok []
  | some _, [] => .error ()
  | none, '\x7b' :: '\x7b' :: rest => (fun r => '\x7b' :: r) <$> pyFormatAux vals none rest
  | none, '\x7d' :: '\x7d' :: rest => (fun r => '\x7d' :: r) <$> pyFormatAux vals none rest
  | none, '\x7b' :: rest => pyFormatAux vals (some []) rest
  | none, '\x7d' :: _ => .error ()
  | none, c :: rest => (fun r => c :: r) <$> pyFormatAux vals none rest
  | some acc, '\x7d' :: rest =>
      match vals.lookup acc.reverse with
      | some v => (fun r => v ++ r) <$> pyFormatAux vals none rest
      | none => .error ()
  | some acc, c :: rest => pyFormatAux vals (some (c :: acc)) rest

/-- Model of `template.format(datetime=..., tab=..., index=..., counter=...)`. -/
def pyFormat (vals : List (Str × Str)) (template : Str) : Except Unit Str :=
  pyFormatAux vals none template

/-- The keyword arguments of the `.format` call in `next_name`. -/
def formatEnv (ts tab : Str) (index : Int) (counter : Nat) : List (Str × Str) :=
  [ ("datetime".toList, ts), ("tab".toList, tab),
    ("index".toList, intRepr index), ("counter".toList, natDec counter) ]

/-- Model of `Exporter.next_name(tab, index)`: increment the counter (this
happens before anything can raise), format the naming template, and
sanitise the result.  Returns the name (or the raised exception) and
the new counter. -/
def next_name (cfg : Cfg) (ts tab : Str) (index : Int) (counter : Nat) :
    Except Unit Str × Nat :=
  let counter' := counter + 1
  let nv := cfgGet cfg "export_naming".toList (.vStr defaultNaming)
  match nv with
  | .vStr t =>
      ((fun base => sanitize_filename base) <$> pyFormat (formatEnv ts tab index counter') t,
       counter')
  | _ => (.error (), counter')   -- a non-str template has no .format with these kwargs

/-- Model of `(self.cfg.get("export_format") or "PNG").upper()` — shared by
`Exporter.ext` and `Exporter.export_image`; raises when the configured
value is truthy but not a string. -/
def fmtUpper (cfg : Cfg) : Except Unit Str :=
  match pyOr (cfgGetN cfg "export_format".toList) (.vStr "PNG".toList) with
  | .vStr s => .ok (upperAscii s)
  | _ => .error ()

/-- Model of `Exporter.ext()`: `".jpg"` for JPG, `".png"` otherwise. -/
def extFn (cfg : Cfg) : Except Unit Str :=
  (fun fmt => if fmt = "JPG".toList then ".jpg".toList else ".png".toList) <$> fmtUpper cfg

/-- An in-memory PIL image (only its mode matters to this code). -/
structure Img where
  mode : Str
deriving Repr

/-- One `img.save(...)` invocation as seen by the encoder. -/
structure EncodeCall where
  format : Str
  quality : Option Int
deriving Repr

/-- Model of `img.save(dest, ...)`: creates/overwrites the destination file. -/
def imgSave (env : Env) (fs : FS) (dest : Str) : FS :=
  { fs with files := (dest, env.nowEpoch) :: fs.files.filter (fun e => e.1 != dest) }

/-- Model of `Exporter.export_image(img, tab, index)`: resolve the directory,
prepare it, generate `name + ext`, then encode as JPEG (after an RGB
convert, with the configured quality) or as PNG.  Returns the written
path and the encoder invocation. -/
def export_image (cfg : Cfg) (env : Env) (_img : Img) (tab : Str) (index : Int)
    (fs : FS) (xs : XState) : Except Unit (Str × EncodeCall × FS × XState) :=
  match resolve_export_dir env tab cfg fs with
  | .error e => .error e
  | .ok (dir, fs1) =>
  match maybe_prepare_dir cfg env dir fs1 xs with
  | .error e => .error e
  | .ok (fs2, xs1) =>
  let nres := next_name cfg env.ts tab index xs1.counter
  let xs2 := { xs1 with counter := nres.2 }
  match nres.1 with
  | .error e => .error e
  | .ok nm =>
  match extFn cfg with
  | .error e => .error e
  | .ok ex =>
  let dest := joinPath dir (nm ++ ex)
  match fmtUpper cfg with
  | .error e => .error e
  | .ok fmt =>
  if fmt = "JPG".toList then
    match pyIntE (cfgGet cfg "export_jpeg_quality".toList (.vInt 95)) with
    | .error e => .error e
    | .ok q => .ok (dest, ⟨"JPEG".toList, some q⟩, imgSave env fs2 dest, xs2)
  else
    .ok (dest, ⟨"PNG".toList, none⟩, imgSave env fs2 dest, xs2)

/-- Model of `Exporter.copy_file(src_path, tab, index)`: resolve and prepare the
directory, generate a fresh name carrying
`os.path.splitext(strip_query(src_path))[-1]`, and `shutil.copy2` the
query-stripped source there. -/
def copy_file (cfg : Cfg) (env : Env) (src : Str) (tab : Str) (index : Int)
    (fs : FS) (xs : XState) : Except Unit (Str × FS × XState) :=
  match resolve_export_dir env tab cfg fs with
  | .error e => .error e
  | .ok (dir, fs1) =>
  match maybe_prepare_dir cfg env dir fs1 xs with
  | .error e => .error e
  | .ok (fs2, xs1) =>
  let nres := next_name cfg env.ts tab index xs1.counter
  let xs2 := { xs1 with counter := nres.2 }
  match nres.1 with
  | .error e => .error e
  | .ok nm =>
  let name := nm ++ (splitext (stripQuery src)).2
  let dest := joinPath dir name
  match copy2 fs2 (stripQuery src) dest with
  | .error e => .error e
  | .ok fs3 => .ok (dest, fs3, xs2)

/-! ### Gallery-item normaliser (`extension.py` lines 233-256) -/

/-- Value of `self.cfg.get("always_export_copy")` as a truth value. -/
def alwaysCopy (cfg : Cfg) : Bool := pyTruthy (cfgGetN cfg "always_export_copy".toList)

/-- Shared tail of the dict and string branches: with an extracted,
query-stripped path `p`, return a copy of it (when `always_export_copy`
is truthy) or the path itself when it exists, else fall through to
`none` — the remaining `isinstance` tests cannot match the same value.
-/
def pathBranch (cfg : Cfg) (env : Env) (p tab : Str) (index : Int)
    (fs : FS) (xs : XState) (pRequireNonEmpty : Bool) :
    Except Unit (Option Str × FS × XState) :=
  if (!pRequireNonEmpty || !p.isEmpty) && fs.exists p then
    if alwaysCopy cfg then
      match copy_file cfg env p tab index fs xs with
      | .error e => .error e
      | .ok (dest, fs1, xs1) => .ok (some dest, fs1, xs1)
    else .ok (some p, fs, xs)
  else .ok (none, fs, xs)

/-- Model of `PaintTool.ensure_path_from_gallery_item(item, tab, index)`.
The four `isinstance` tests are mutually exclusive on any one value, so
the source's sequential fall-through collapses to a single match:
- a dict: `strip_query(item.get("name") or "")` — raising
  `AttributeError` when the stored name is truthy but not a string —
  then the exists/copy logic;
- a string: same logic on `strip_query(item)`;
- a non-empty tuple/list whose head is an image: `export_image`;
- an image: `export_image`;
- anything else: `None`. -/
def ensure_path_from_gallery_item (cfg : Cfg) (env : Env) (item : PyVal)
    (tab : Str) (index : Int) (fs : FS) (xs : XState) :
    Except Unit (Option Str × FS × XState) :=
  match item with
  | .vDict d =>
      match pyOr (cfgGetN d "name".toList) (.vStr []) with
      | .vStr s => pathBranch cfg env (stripQuery s) tab index fs xs true
      | _ => .error ()   -- truthy non-str: strip_query's p.split raises
  | .vStr s => pathBranch cfg env (stripQuery s) tab index fs xs false
  | .vList items =>
      match items with
      | .vImage m :: _ => (fun r => (some r.1, r.2.2.1, r.2.2.2)) <$>
          export_image cfg env ⟨m⟩ tab index fs xs
      | _ => .ok (none, fs, xs)
  | .vImage m => (fun r => (some r.1, r.2.2.1, r.2.2.2)) <$>
      export_image cfg env ⟨m⟩ tab index fs xs
  | _ => .ok (none, fs, xs)

/-- The four recognised gallery-item shapes of the claim: a dict with
an existing embedded path, a path string naming an existing file, a
tuple/list whose first element is an in-memory image, or a bare
in-memory image. -/
def recognizedItem (fs : FS) (item : PyVal) : Bool :=
  match item with
  | .vDict d =>
      match d.lookup "name".toList with
      | some (.vStr s) =>
          let p := stripQuery s
          !p.isEmpty && fs.exists p
      | _ => false
  | .vStr s => fs.exists (stripQuery s)
  | .vList items =>
      match items with
      | .vImage _ :: _ => true
      | _ => false
  | .vImage _ => true
  | _ => false

/-! ### Click handler (`extension.py` lines 260-306) -/

/-- Index selection in `open_in_editor`: `int(index)` with 0 on
coercion failure, then 0 when out of `[0, n)`. -/
def select_index (index : PyVal) (n : Nat) : Int :=
  let i : Int := match pyIntE index with
    | .ok v => v
    | .error _ => 0
  if i < 0 || i ≥ (n : Int) then 0 else i

/-- Result of one click: whether an exception escaped (`res`), the
filesystem and exporter state, and the emitted log lines (modelled as
fixed tags; only their presence matters). -/
structure RunOut where
  res : Except Unit Unit
  fs : FS
  xs : XState
  logs : List Str
deriving Repr

/-- Body of `PaintTool.open_in_editor` inside the outer `try`.  The
editor-path coercion happens before the inner `try`, so a truthy
non-string `editor_path` raises out of the body; the two launch sites
sit inside the inner `try/except`, which converts a launch failure into
a log line.  (State mutated before an exception is not preserved by the
model's error results; no claim reads post-exception state.) -/
def open_in_editor_inner (cfg : Cfg) (env : Env) (images index tabv : PyVal)
    (fs : FS) (xs : XState) : RunOut :=
  match images with
  | .vList items =>
    if items.isEmpty then ⟨.ok (), fs, xs, ["no-images".toList]⟩
    else
      let idx := select_index index items.length
      let tab := match tabv with
        | .vStr s => if !s.isEmpty then s else "unknown".toList
        | _ => "unknown".toList
      match items.get? idx.toNat with
      | none => ⟨.error (), fs, xs, []⟩   -- IndexError (unreachable, see C10)
      | some item =>
        match ensure_path_from_gallery_item cfg env item tab idx fs xs with
        | .error e => ⟨.error e, fs, xs, []⟩
        | .ok (none, fs1, xs1) => ⟨.ok (), fs1, xs1, ["no-path".toList]⟩
        | .ok (some p, fs1, xs1) =>
          if !fs1.exists p then ⟨.ok (), fs1, xs1, ["file-not-found".toList]⟩
          else
            match pyOr (cfgGetN cfg "editor_path".toList) (.vStr []) with
            | .vStr es =>
              let editor := stripWs es
              -- inner try/except around the process launches
              if !editor.isEmpty && fs1.exists editor then
                if env.launchOk then ⟨.ok (), fs1, xs1, ["launch-editor".toList]⟩
                else ⟨.ok (), fs1, xs1, ["launch-editor".toList, "launch-error".toList]⟩
              else
                if env.openerOk then ⟨.ok (), fs1, xs1, ["default-open".toList]⟩
                else ⟨.ok (), fs1, xs1, ["default-open".toList, "launch-error".toList]⟩
            | _ => ⟨.error (), fs1, xs1, []⟩   -- (... or "").strip() on a non-str
  | _ => ⟨.ok (), fs, xs, ["images-not-list".toList]⟩

/-- Model of `PaintTool.open_in_editor`: the body above wrapped in the
outer catch-all `except`, which logs and returns. -/
def open_in_editor (cfg : Cfg) (env : Env) (images index tabv : PyVal)
    (fs : FS) (xs : XState) : RunOut :=
  let r := open_in_editor_inner cfg env images index tabv fs xs
  match r.res with
  | .ok _ => r
  | .error _ => ⟨.ok (), r.fs, r.xs, r.logs ++ ["exception".toList]⟩

/-! ### Concrete sample data used by the closed theorems below -/

/-- A concrete ambient environment: host store unavailable, fixed
timestamp and clock, POSIX platform, both launch sites succeed. -/
def sampleEnv : Env :=
  { extRoot := "/ext/paint-tool".toList
    opts := .error ()
    ts := "20260101_000000".toList
    nowEpoch := 1767225600
    osWindows := false
    osDarwin := false
    launchOk := true
    openerOk := true }

/-- Fresh exporter state. -/
def xs0 : XState := ⟨0, []⟩

/-- Empty filesystem. -/
def fs0 : FS := ⟨[], []⟩

/-- Tab name used by the concrete runs. -/
def tabW : Str := "txt2img".toList

/-- A user config selecting an existing export directory. -/
def cfgW4 : Cfg :=
  load_config sampleEnv (.parsed (.vDict [("export_dir".toList, .vStr "/out".toList)]))

/-- Filesystem for the copy runs: the export dir exists, and a source
file `/tmp/a.png` with mtime 5 exists. -/
def fsW4 : FS := ⟨["/out".toList], [("/tmp/a.png".toList, 5)]⟩

/-- A gallery path with a cache-busting query suffix. -/
def srcW4 : Str := "/tmp/a.png?x=1".toList

/-- The concrete `copy_file` run for the C4 witness. -/
def cpW4 : Except Unit (Str × FS × XState) :=
  copy_file cfgW4 sampleEnv srcW4 tabW 0 fsW4 xs0

/-- Destination path of the C4 witness run. -/
def cpW4dest : Str := match cpW4 with | .ok r => r.1 | .error _ => []

/-- Filesystem after the C4 witness run. -/
def cpW4fs : FS := match cpW4 with | .ok r => r.2.1 | .error _ => fs0

/-- Exporter state after the C4 witness run. -/
def cpW4xs : XState := match cpW4 with | .ok r => r.2.2 | .error _ => xs0

/-- A user config with JPG format and an existing export directory. -/
def cfgX4 : Cfg :=
  load_config sampleEnv (.parsed (.vDict
    [ ("export_dir".toList, .vStr "/out".toList),
      ("export_format".toList, .vStr "JPG".toList) ]))

/-- An extensionless source file. -/
def srcX4 : Str := "/tmp/image".toList

/-- Filesystem for the C4 counterexample: export dir and the
extensionless source exist. -/
def fsX4 : FS := ⟨["/out".toList], [("/tmp/image".toList, 5)]⟩

/-- The concrete `copy_file` run for the C4 counterexample. -/
def cpX4 : Except Unit (Str × FS × XState) :=
  copy_file cfgX4 sampleEnv srcX4 tabW 0 fsX4 xs0

/-- Destination path of the C4 counterexample run. -/
def cpX4dest : Str := match cpX4 with | .ok r => r.1 | .error _ => []

/-- A user config with JPG format and an out-of-range JPEG quality. -/
def cfgX5 : Cfg :=
  load_config sampleEnv (.parsed (.vDict
    [ ("export_dir".toList, .vStr "/out".toList),
      ("export_format".toList, .vStr "JPG".toList),
      ("export_jpeg_quality".toList, .vInt 150) ]))

/-- Filesystem for the C5 counterexample. -/
def fsX5 : FS := ⟨["/out".toList], []⟩

/-- The concrete `export_image` run for the C5 counterexample. -/
def exX5 : Except Unit (Str × EncodeCall × FS × XState) :=
  export_image cfgX5 sampleEnv ⟨"RGBA".toList⟩ tabW 0 fsX5 xs0

/-- A user config whose naming template omits every placeholder. -/
def cfgImg : Cfg :=
  load_config sampleEnv (.parsed (.vDict [("export_naming".toList, .vStr "img".toList)]))

/-- A gallery dict whose embedded name is a truthy non-string. -/
def itemBadName : PyVal := .vDict [("name".toList, .vInt 1)]

/-! ### Derived definitions used by the theorems -/

/-- Is a character one of the disallowed filename characters? -/
def isBad (c : Char) : Bool := badChars.contains c

/-- Pointwise effect of the sanitisation loop on one character. -/
def sanChar (c : Char) : Char := if isBad c then '_' else c

/-- The segment of a string after its last underscore (the whole string
when it has none). -/
def afterLastUnd (s : Str) : Str := (s.reverse.takeWhile (fun c => c != '_')).reverse

/-- Tier 1 of the resolver as the amended claim words it: the
user-configured directory, as a stripped string. -/
def userDirVal (cfg : Cfg) : Str :=
  stripWs (pyStrFn (pyOr (cfgGetN cfg "export_dir".toList) (.vStr [])))

/-- Tier 2 of the resolver as the amended claim words it: the host
store's per-context samples directory, else its global samples
directory; an exception while consulting the store, a missing
attribute, or an empty value all mean "not available". -/
def storeDir (env : Env) (tab : Str) : Option Str :=
  match env.opts with
  | .error _ => none
  | .ok attr =>
      let per := attr ("outdir_".toList ++ tab ++ "_samples".toList)
      let glob := attr "outdir_samples".toList
      let chosen := match per with
        | some s => if !s.isEmpty then some s else glob
        | none => glob
      match chosen with
      | some o => if !o.isEmpty then some o else none
      | none => none

/-- Modelled from the amended claim: a three-tier resolver — (1) the
user-configured directory when it already exists, (2) the host store's
per-context or global samples directory, created before being returned
and with a creation failure treated as unavailable, (3) the
extension-local `exports` directory, created if missing. -/
def resolve_export_dir_spec3 (env : Env) (tab : Str) (cfg : Cfg) (fs : FS) :
    Except Unit (Str × FS) :=
  let u := userDirVal cfg
  if !u.isEmpty && fs.isdir u then .ok (u, fs)
  else
    let tierFinal : Except Unit (Str × FS) :=
      match makedirs fs (joinPath env.extRoot "exports".toList) with
      | .ok fs1 => .ok (joinPath env.extRoot "exports".toList, fs1)
      | .error e => .error e
    match storeDir env tab with
    | some o =>
        match makedirs fs o with
        | .ok fs1 => .ok (o, fs1)
        | .error _ => tierFinal
    | none => tierFinal

/-- Well-formedness of a gallery dict for the amended C8: the embedded
`name`, when present, is a string or a falsy value (a truthy non-string
makes `strip_query` raise). -/
def dictNameOk : PyVal → Prop
  | .vDict d =>
      match d.lookup "name".toList with
      | some v => pyTruthy v = false ∨ ∃ s, v = .vStr s
      | none => True
  | _ => True

/-- The concrete resolver run of the C2 witness. -/
def rsW2 : Except Unit (Str × FS) :=
  resolve_export_dir sampleEnv tabW (default_config sampleEnv) fs0

/-- Directory returned by the C2 witness run. -/
def rsW2dir : Str := match rsW2 with | .ok r => r.1 | .error _ => []

/-- Filesystem after the C2 witness run. -/
def rsW2fs : FS := match rsW2 with | .ok r => r.2 | .error _ => fs0

/-- Filesystem after the C4 counterexample run. -/
def cpX4fs : FS := match cpX4 with | .ok r => r.2.1 | .error _ => fs0

/-- Exporter state after the C4 counterexample run. -/
def cpX4xs : XState := match cpX4 with | .ok r => r.2.2 | .error _ => xs0

/-- Encoder format of the C5 counterexample run. -/
def exX5format : Str := match exX5 with | .ok r => r.2.1.format | .error _ => []

/-- Encoder quality of the C5 counterexample run. -/
def exX5quality : Option Int := match exX5 with | .ok r => r.2.1.quality | .error _ => none

/-- A JPG export run with the default (95) quality, for the C5 witness. -/
def exW5 : Except Unit (Str × EncodeCall × FS × XState) :=
  export_image cfgX4 sampleEnv ⟨"RGB".toList⟩ tabW 1 fsX5 xs0

/-- Destination of the C5 witness run. -/
def exW5dest : Str := match exW5 with | .ok r => r.1 | .error _ => []

/-- Encoder call of the C5 witness run. -/
def exW5call : EncodeCall := match exW5 with | .ok r => r.2.1 | .error _ => ⟨[], none⟩

/-- Filesystem after the C5 witness run. -/
def exW5fs : FS := match exW5 with | .ok r => r.2.2.1 | .error _ => fs0

/-- Exporter state after the C5 witness run. -/
def exW5xs : XState := match exW5 with | .ok r => r.2.2.2 | .error _ => xs0

/-! ## Theorems -/

/-! ### Filename sanitisation (C6) -/

theorem map_id_of_fix {f : Char → Char} :
    ∀ l : Str, (∀ c ∈ l, f c = c) → l.map f = l := by
  intro l h
  induction l with
  | nil => rfl
  | cons c t ih =>
      simp only [List.map_cons]
      rw [h c (by simp), ih (fun d hd => h d (by simp [hd]))]

theorem contains_true_iff {α : Type} [BEq α] [LawfulBEq α] (l : List α) (x : α) :
    l.contains x = true ↔ x ∈ l :=
  List.elem_iff

theorem contains_false_iff {α : Type} [BEq α] [LawfulBEq α] (l : List α) (x : α) :
    l.contains x = false ↔ x ∉ l := by
  rw [Bool.eq_false_iff, Ne, contains_true_iff]

theorem foldl_replace (bs : Str) (hnu : bs.contains '_' = false) :
    ∀ s : Str, bs.foldl (fun acc ch => replaceChar ch acc) s
      = s.map (fun x => if bs.contains x then '_' else x) := by
  induction bs with
  | nil =>
      intro s
      simp [List.foldl, List.contains]
  | cons c bs ih =>
      intro s
      have hnmem : '_' ∉ c :: bs := (contains_false_iff _ _).1 hnu
      have hnu' : bs.contains '_' = false :=
        (contains_false_iff _ _).2 fun h => hnmem (List.mem_cons_of_mem c h)
      have hne : '_' ≠ c := fun h => hnmem (h ▸ List.mem_cons_self c bs)
      simp only [List.foldl_cons]
      rw [ih hnu' (replaceChar c s)]
      unfold replaceChar
      rw [List.map_map]
      have hfun : ((fun x => if bs.contains x then '_' else x) ∘ fun x => if x = c then '_' else x)
          = fun x => if (c :: bs).contains x then '_' else x := by
        funext x
        by_cases hx : x = c
        · subst hx
          have hmem : (x :: bs).contains x = true :=
            (contains_true_iff _ _).2 (List.mem_cons_self x bs)
          simp only [Function.comp_apply, if_pos rfl, ite_self, hmem, if_true]
        · simp only [Function.comp_apply, if_neg hx]
          by_cases hbx : x ∈ bs
          · have h1 : bs.contains x = true := (contains_true_iff _ _).2 hbx
            have h2 : (c :: bs).contains x = true :=
              (contains_true_iff _ _).2 (List.mem_cons_of_mem c hbx)
            rw [h1, h2]
          · have h1 : bs.contains x = false := (contains_false_iff _ _).2 hbx
            have h2 : (c :: bs).contains x = false :=
              (contains_false_iff _ _).2 fun h => by
                rcases List.mem_cons.1 h with h | h
                · exact hx h
                · exact hbx h
            rw [h1, h2]
      rw [hfun]

theorem sanitize_eq_map (s : Str) : sanitize_filename s = s.map sanChar :=
  foldl_replace badChars (by decide) s

theorem sanChar_idem (x : Char) : sanChar (sanChar x) = sanChar x := by
  by_cases h : isBad x = true
  · simp only [sanChar, h, if_true]
    decide
  · have h' : isBad x = false := by revert h; cases isBad x <;> simp
    simp [sanChar, h']

theorem sanChar_not_bad (x : Char) : isBad (sanChar x) = false := by
  by_cases h : isBad x = true
  · simp only [sanChar, h, if_true]
    decide
  · have h' : isBad x = false := by revert h; cases isBad x <;> simp
    simp [sanChar, h']

/-- C6: `sanitize_filename` is idempotent, and its output contains none
of the disallowed characters `<>:"/\|?*`, tab, newline or carriage
return (the characters of `badChars`). -/
theorem C6_sanitize_idempotent_and_clean (s : Str) :
    sanitize_filename (sanitize_filename s) = sanitize_filename s ∧
    (sanitize_filename s).all (fun c => !(isBad c)) = true := by
  constructor
  · rw [sanitize_eq_map s, sanitize_eq_map, List.map_map]
    have h : sanChar ∘ sanChar = sanChar := funext sanChar_idem
    rw [h]
  · rw [sanitize_eq_map, List.all_eq_true]
    intro c hc
    rw [List.mem_map] at hc
    obtain ⟨x, _, rfl⟩ := hc
    simp [sanChar_not_bad x]

/-! ### Configuration loading (C1) -/

theorem coerceKey_quality (uv : PyVal) :
    coerceKey "export_jpeg_quality".toList (.vInt 95) uv
      = .vInt ((pyIntE uv).toOption.getD 95) := by
  unfold coerceKey
  rw [if_neg (by decide), if_pos rfl]
  cases h : pyIntE uv <;> simp [h, Except.toOption]

theorem coerceKey_days (uv : PyVal) :
    coerceKey "export_cleanup_days".toList (.vInt 0) uv
      = .vInt ((pyIntE uv).toOption.getD 0) := by
  unfold coerceKey
  rw [if_pos rfl]
  cases h : pyIntE uv <;> simp [h, Except.toOption]

theorem coerceKey_bool (uv : PyVal) :
    coerceKey "always_export_copy".toList (.vBool false) uv = .vBool (pyTruthy uv) := by
  unfold coerceKey
  rw [if_neg (by decide), if_neg (by decide), if_pos rfl]

theorem coerceKey_format (uv : PyVal) :
    ∃ s, coerceKey "export_format".toList (.vStr "PNG".toList) uv = .vStr s ∧
      (s = "PNG".toList ∨ s = "JPG".toList) := by
  unfold coerceKey
  rw [if_neg (by decide), if_neg (by decide), if_neg (by decide), if_pos rfl]
  cases uv with
  | vStr s =>
      by_cases h : upperAscii s = "PNG".toList ∨ upperAscii s = "JPG".toList
      · have hb : (upperAscii s = "PNG".toList || upperAscii s = "JPG".toList) = true := by
          rcases h with h | h <;> simp [h]
        refine ⟨upperAscii s, ?_, h⟩
        show (if (upperAscii s = "PNG".toList || upperAscii s = "JPG".toList) = true
            then PyVal.vStr (upperAscii s) else PyVal.vStr "PNG".toList)
          = PyVal.vStr (upperAscii s)
        rw [if_pos hb]
      · push_neg at h
        have hb : (upperAscii s = "PNG".toList || upperAscii s = "JPG".toList) = false := by
          simp only [Bool.or_eq_false_iff, decide_eq_false_iff_not]
          exact ⟨h.1, h.2⟩
        refine ⟨"PNG".toList, ?_, Or.inl rfl⟩
        show (if (upperAscii s = "PNG".toList || upperAscii s = "JPG".toList) = true
            then PyVal.vStr (upperAscii s) else PyVal.vStr "PNG".toList)
          = PyVal.vStr "PNG".toList
        rw [if_neg (fun hc => by rw [hb] at hc; exact Bool.noConfusion hc)]
  | vNone => exact ⟨"PNG".toList, by simp, Or.inl rfl⟩
  | vBool b => exact ⟨"PNG".toList, by simp, Or.inl rfl⟩
  | vInt n => exact ⟨"PNG".toList, by simp, Or.inl rfl⟩
  | vList xs => exact ⟨"PNG".toList, by simp, Or.inl rfl⟩
  | vDict xs => exact ⟨"PNG".toList, by simp, Or.inl rfl⟩
  | vImage m => exact ⟨"PNG".toList, by simp, Or.inl rfl⟩

theorem coerceKey_str (k : Str) (d uv : PyVal) (hd : ∃ t, d = .vStr t)
    (h1 : k ≠ "export_cleanup_days".toList) (h2 : k ≠ "export_jpeg_quality".toList)
    (h3 : k ≠ "always_export_copy".toList) (h4 : k ≠ "export_format".toList) :
    coerceKey k d uv = .vStr (pyStrFn uv) := by
  unfold coerceKey
  rw [if_neg h1, if_neg h2, if_neg h3, if_neg h4]
  obtain ⟨t, rfl⟩ := hd
  rfl

/-- C1: for every configuration-file outcome, `load_config` returns a
mapping in which every recognized key is present with a value of its
coerced type — the integer fields as ints obtained by `int()` with the
default on failure, `always_export_copy` as a bool, `export_format` as
a string from the allow-list — and any file-read or parse failure
yields exactly the default configuration. -/
theorem C1_load_config_total (env : Env) (f : ConfigFile) :
    ((f = .absent ∨ f = .unreadable ∨ f = .malformed) →
        load_config env f = default_config env) ∧
    (∃ s, (load_config env f).lookup "editor_path".toList = some (.vStr s)) ∧
    (∃ s, (load_config env f).lookup "export_dir".toList = some (.vStr s)) ∧
    (∃ b, (load_config env f).lookup "always_export_copy".toList = some (.vBool b)) ∧
    (∃ s, (load_config env f).lookup "export_format".toList = some (.vStr s) ∧
        (s = "PNG".toList ∨ s = "JPG".toList)) ∧
    (∃ n, (load_config env f).lookup "export_jpeg_quality".toList = some (.vInt n)) ∧
    (∃ s, (load_config env f).lookup "export_naming".toList = some (.vStr s)) ∧
    (∃ n, (load_config env f).lookup "export_cleanup_days".toList = some (.vInt n)) ∧
    (∀ user, f = .parsed (.vDict user) →
      (load_config env f).lookup "export_jpeg_quality".toList
        = some (.vInt ((pyIntE (cfgGet user "export_jpeg_quality".toList (.vInt 95))).toOption.getD 95)) ∧
      (load_config env f).lookup "export_cleanup_days".toList
        = some (.vInt ((pyIntE (cfgGet user "export_cleanup_days".toList (.vInt 0))).toOption.getD 0)) ∧
      (load_config env f).lookup "always_export_copy".toList
        = some (.vBool (pyTruthy (cfgGet user "always_export_copy".toList (.vBool false))))) := by
  have hdef : (load_config env f = default_config env ∧
        ∀ user, f ≠ .parsed (.vDict user)) ∨
      ∃ user, f = .parsed (.vDict user) := by
    cases f with
    | absent => exact Or.inl ⟨rfl, fun user h => by cases h⟩
    | unreadable => exact Or.inl ⟨rfl, fun user h => by cases h⟩
    | malformed => exact Or.inl ⟨rfl, fun user h => by cases h⟩
    | parsed v =>
        cases v with
        | vDict user => exact Or.inr ⟨user, rfl⟩
        | vNone => exact Or.inl ⟨rfl, fun user h => by
            injection h with h2; exact PyVal.noConfusion h2⟩
        | vBool b => exact Or.inl ⟨rfl, fun user h => by
            injection h with h2; exact PyVal.noConfusion h2⟩
        | vInt n => exact Or.inl ⟨rfl, fun user h => by
            injection h with h2; exact PyVal.noConfusion h2⟩
        | vStr s => exact Or.inl ⟨rfl, fun user h => by
            injection h with h2; exact PyVal.noConfusion h2⟩
        | vList xs => exact Or.inl ⟨rfl, fun user h => by
            injection h with h2; exact PyVal.noConfusion h2⟩
        | vImage m => exact Or.inl ⟨rfl, fun user h => by
            injection h with h2; exact PyVal.noConfusion h2⟩
  rcases hdef with ⟨hdef, hnd⟩ | ⟨user, rfl⟩
  · refine ⟨fun _ => hdef, ?_, ?_, ?_, ?_, ?_, ?_, ?_, ?_⟩
    · exact ⟨defaultEditor, by rw [hdef]; rfl⟩
    · exact ⟨joinPath env.extRoot "exports".toList, by rw [hdef]; rfl⟩
    · exact ⟨false, by rw [hdef]; rfl⟩
    · exact ⟨"PNG".toList, by rw [hdef]; rfl, Or.inl rfl⟩
    · exact ⟨95, by rw [hdef]; rfl⟩
    · exact ⟨defaultNaming, by rw [hdef]; rfl⟩
    · exact ⟨0, by rw [hdef]; rfl⟩
    · intro user hu
      exact absurd hu (hnd user)
  · have eq1 : (load_config env (.parsed (.vDict user))).lookup "editor_path".toList
        = some (coerceKey "editor_path".toList (.vStr defaultEditor)
            (cfgGet user "editor_path".toList (.vStr defaultEditor))) := rfl
    have eq2 : (load_config env (.parsed (.vDict user))).lookup "export_dir".toList
        = some (coerceKey "export_dir".toList (.vStr (joinPath env.extRoot "exports".toList))
            (cfgGet user "export_dir".toList (.vStr (joinPath env.extRoot "exports".toList)))) := rfl
    have eq3 : (load_config env (.parsed (.vDict user))).lookup "always_export_copy".toList
        = some (coerceKey "always_export_copy".toList (.vBool false)
            (cfgGet user "always_export_copy".toList (.vBool false))) := rfl
    have eq4 : (load_config env (.parsed (.vDict user))).lookup "export_format".toList
        = some (coerceKey "export_format".toList (.vStr "PNG".toList)
            (cfgGet user "export_format".toList (.vStr "PNG".toList))) := rfl
    have eq5 : (load_config env (.parsed (.vDict user))).lookup "export_jpeg_quality".toList
        = some (coerceKey "export_jpeg_quality".toList (.vInt 95)
            (cfgGet user "export_jpeg_quality".toList (.vInt 95))) := rfl
    have eq6 : (load_config env (.parsed (.vDict user))).lookup "export_naming".toList
        = some (coerceKey "export_naming".toList (.vStr defaultNaming)
            (cfgGet user "export_naming".toList (.vStr defaultNaming))) := rfl
    have eq7 : (load_config env (.parsed (.vDict user))).lookup "export_cleanup_days".toList
        = some (coerceKey "export_cleanup_days".toList (.vInt 0)
            (cfgGet user "export_cleanup_days".toList (.vInt 0))) := rfl
    refine ⟨?_, ?_, ?_, ?_, ?_, ?_, ?_, ?_, ?_⟩
    · rintro (h | h | h) <;> exact absurd h (by intro hc; cases hc)
    · rw [eq1, coerceKey_str _ _ _ ⟨_, rfl⟩ (by decide) (by decide) (by decide) (by decide)]
      exact ⟨_, rfl⟩
    · rw [eq2, coerceKey_str _ _ _ ⟨_, rfl⟩ (by decide) (by decide) (by decide) (by decide)]
      exact ⟨_, rfl⟩
    · rw [eq3, coerceKey_bool]
      exact ⟨_, rfl⟩
    · obtain ⟨s, hs, hall⟩ := coerceKey_format (cfgGet user "export_format".toList (.vStr "PNG".toList))
      rw [eq4, hs]
      exact ⟨s, rfl, hall⟩
    · rw [eq5, coerceKey_quality]
      exact ⟨_, rfl⟩
    · rw [eq6, coerceKey_str _ _ _ ⟨_, rfl⟩ (by decide) (by decide) (by decide) (by decide)]
      exact ⟨_, rfl⟩
    · rw [eq7, coerceKey_days]
      exact ⟨_, rfl⟩
    · intro user' hu
      injection hu with hv
      injection hv with hu2
      subst hu2
      refine ⟨?_, ?_, ?_⟩
      · rw [eq5, coerceKey_quality]
      · rw [eq7, coerceKey_days]
      · rw [eq3, coerceKey_bool]

/-- C1 witness: a failure outcome yields exactly the defaults, and a
config file with quality given as the string "88" loads as the integer
88. -/
theorem C1_witness :
    load_config sampleEnv .absent = default_config sampleEnv ∧
    (load_config sampleEnv (.parsed (.vDict
        [("export_jpeg_quality".toList, .vStr "88".toList)]))).lookup
        "export_jpeg_quality".toList = some (.vInt 88) := by
  constructor
  · exact (C1_load_config_total sampleEnv .absent).1 (Or.inl rfl)
  · have h := (C1_load_config_total sampleEnv (.parsed (.vDict
        [("export_jpeg_quality".toList, .vStr "88".toList)]))).2.2.2.2.2.2.2.2
    exact (h _ rfl).1

/-! ### Export-directory resolution (C2, C3) -/

theorem makedirs_spec {fs : FS} {p : Str} {fs' : FS} (h : makedirs fs p = .ok fs') :
    fs'.dirs.contains p = true ∧ (fs' = fs ∨ fs'.dirs = p :: fs.dirs) ∧
    fs'.files = fs.files := by
  unfold makedirs at h
  split at h
  · exact Except.noConfusion h
  · injection h with h1
    subst h1
    by_cases hc : fs.dirs.contains p = true
    · refine ⟨?_, Or.inl ?_, rfl⟩
      · show (if fs.dirs.contains p = true then fs.dirs else p :: fs.dirs).contains p = true
        rw [if_pos hc]
        exact hc
      · show ({ fs with dirs := if fs.dirs.contains p = true then fs.dirs
            else p :: fs.dirs } : FS) = fs
        rw [if_pos hc]
    · refine ⟨?_, Or.inr ?_, rfl⟩
      · show (if fs.dirs.contains p = true then fs.dirs else p :: fs.dirs).contains p = true
        rw [if_neg hc]
        exact (contains_true_iff (p :: fs.dirs) p).2 (List.mem_cons_self p fs.dirs)
      · show (if fs.dirs.contains p = true then fs.dirs else p :: fs.dirs) = p :: fs.dirs
        rw [if_neg hc]

/-- C2: whenever `resolve_export_dir` returns a directory, that
directory exists in the returned filesystem state: tier 1 is accepted
only when it already exists (state unchanged), and each later tier's
directory has been created (`os.makedirs`) before being returned. -/
theorem C2_resolved_dir_exists (env : Env) (tab : Str) (cfg : Cfg) (fs : FS)
    (p : Str) (fs' : FS) (h : resolve_export_dir env tab cfg fs = .ok (p, fs')) :
    fs'.dirs.contains p = true ∧ (fs' = fs ∨ fs'.dirs = p :: fs.dirs) ∧
    fs'.files = fs.files := by
  simp only [resolve_export_dir] at h
  split at h
  · rename_i hcond
    injection h with h1
    have hp : stripWs (pyStrFn (pyOr (cfgGetN cfg "export_dir".toList) (.vStr []))) = p :=
      congrArg Prod.fst h1
    have hfs : fs = fs' := congrArg Prod.snd h1
    subst hp
    subst hfs
    rw [Bool.and_eq_true] at hcond
    exact ⟨hcond.2, Or.inl rfl, rfl⟩
  · split at h
    · -- env.opts raised: final fallback tier
      split at h
      · rename_i fs1 heq
        injection h with h1
        have hp : joinPath env.extRoot "exports".toList = p := congrArg Prod.fst h1
        have hfs : fs1 = fs' := congrArg Prod.snd h1
        subst hp
        subst hfs
        exact makedirs_spec heq
      · exact Except.noConfusion h
    · -- store consulted
      split at h
      · split at h
        · split at h
          · rename_i fs1 heq
            injection h with h1
            have hp : _ = p := congrArg Prod.fst h1
            have hfs : fs1 = fs' := congrArg Prod.snd h1
            subst hp
            subst hfs
            exact makedirs_spec heq
          · -- ensure_dir failed inside the try: final fallback
            split at h
            · rename_i fs1 heq
              injection h with h1
              have hp : joinPath env.extRoot "exports".toList = p := congrArg Prod.fst h1
              have hfs : fs1 = fs' := congrArg Prod.snd h1
              subst hp
              subst hfs
              exact makedirs_spec heq
            · exact Except.noConfusion h
        · split at h
          · rename_i fs1 heq
            injection h with h1
            have hp : joinPath env.extRoot "exports".toList = p := congrArg Prod.fst h1
            have hfs : fs1 = fs' := congrArg Prod.snd h1
            subst hp
            subst hfs
            exact makedirs_spec heq
          · exact Except.noConfusion h
      · split at h
        · rename_i fs1 heq
          injection h with h1
          have hp : joinPath env.extRoot "exports".toList = p := congrArg Prod.fst h1
          have hfs : fs1 = fs' := congrArg Prod.snd h1
          subst hp
          subst hfs
          exact makedirs_spec heq
        · exact Except.noConfusion h

/-- C2 witness: a concrete resolution (store unavailable, empty
filesystem) returns the extension-local directory, which exists in the
returned state. -/
theorem C2_witness :
    resolve_export_dir sampleEnv tabW (default_config sampleEnv) fs0 = .ok (rsW2dir, rsW2fs) ∧
    rsW2fs.dirs.contains rsW2dir = true := by
  refine ⟨rfl, ?_⟩
  exact (C2_resolved_dir_exists sampleEnv tabW (default_config sampleEnv) fs0
    rsW2dir rsW2fs rfl).1

/-- C3 (amended): the resolver is exactly the three-tier cascade — user
directory when it already exists; else the host store's per-context or
global samples directory (store exceptions and creation failures fall
through); else the extension-local fallback, created. -/
theorem C3_resolver_three_tiers (env : Env) (tab : Str) (cfg : Cfg) (fs : FS) :
    resolve_export_dir env tab cfg fs = resolve_export_dir_spec3 env tab cfg fs := by
  simp only [resolve_export_dir, resolve_export_dir_spec3, storeDir, userDirVal]
  by_cases hcond : (!(stripWs (pyStrFn (pyOr (cfgGetN cfg "export_dir".toList)
      (.vStr [])))).isEmpty && fs.isdir (stripWs (pyStrFn (pyOr
      (cfgGetN cfg "export_dir".toList) (.vStr []))))) = true
  · rw [if_pos hcond, if_pos hcond]
  · rw [if_neg hcond, if_neg hcond]
    rcases hopts : env.opts with e | attr <;> simp only [hopts]
    rcases ha : attr ("outdir_".toList ++ tab ++ "_samples".toList) with _ | s <;>
      simp only [ha]
    · rcases hb : attr "outdir_samples".toList with _ | g <;> simp only [hb]
      by_cases hg : (!g.isEmpty) = true
      · simp only [if_pos hg]
      · simp only [if_neg hg]
    · by_cases hs : (!s.isEmpty) = true
      · simp only [if_pos hs]
      · simp only [if_neg hs]
        rcases hb : attr "outdir_samples".toList with _ | g <;> simp only [hb]
        by_cases hg : (!g.isEmpty) = true
        · simp only [if_pos hg]
        · simp only [if_neg hg]

/-- C3 counterexample: with the user directory not existing and the
host store unavailable, the resolver's very next fallback is already
the extension-local `exports` directory — identical for two different
contexts — so there is no fourth, per-context "base path plus
subfolder" tier between the store and the extension-local fallback. -/
theorem C3_counterexample :
    resolve_export_dir sampleEnv "txt2img".toList (default_config sampleEnv) fs0
      = .ok (joinPath sampleEnv.extRoot "exports".toList,
          ⟨["/ext/paint-tool/exports".toList], []⟩) ∧
    resolve_export_dir sampleEnv "img2img".toList (default_config sampleEnv) fs0
      = .ok (joinPath sampleEnv.extRoot "exports".toList,
          ⟨["/ext/paint-tool/exports".toList], []⟩) := ⟨rfl, rfl⟩

/-! ### Exporter naming and copying (C4, C7) -/

theorem next_name_counter (cfg : Cfg) (ts tab : Str) (index : Int) (c : Nat) :
    (next_name cfg ts tab index c).2 = c + 1 := by
  unfold next_name
  rcases cfgGet cfg "export_naming".toList (.vStr defaultNaming) with
    _ | b | n | t | xs | ds | m <;> rfl

/-- C4 (amended): a successful `copy_file` resolves the directory,
generates a fresh name, and copies the query-stripped source (with its
mtime preserved) to `dir/(name ++ ext)`, where `ext` is whatever
`os.path.splitext` finds on the query-stripped source — possibly the
empty string; there is no fallback to the configured export extension. -/
theorem C4_copy_file_dest (cfg : Cfg) (env : Env) (src tab : Str) (index : Int)
    (fs : FS) (xs : XState) (d : Str) (fs' : FS) (xs' : XState)
    (h : copy_file cfg env src tab index fs xs = .ok (d, fs', xs')) :
    ∃ dir fs1 fs2 xs1 nm mt,
      resolve_export_dir env tab cfg fs = .ok (dir, fs1) ∧
      maybe_prepare_dir cfg env dir fs1 xs = .ok (fs2, xs1) ∧
      (next_name cfg env.ts tab index xs1.counter).1 = .ok nm ∧
      xs' = { xs1 with counter := xs1.counter + 1 } ∧
      d = joinPath dir (nm ++ (splitext (stripQuery src)).2) ∧
      fs2.files.lookup (stripQuery src) = some mt ∧
      fs' = { fs2 with files := (d, mt) :: fs2.files.filter (fun e => e.1 != d) } := by
  simp only [copy_file] at h
  split at h
  · exact Except.noConfusion h
  · rename_i dir fs1 heq1
    split at h
    · exact Except.noConfusion h
    · rename_i fs2 xs1 heq2
      split at h
      · exact Except.noConfusion h
      · rename_i nm heq3
        split at h
        · exact Except.noConfusion h
        · rename_i fs3 heq4
          injection h with h1
          have hd : joinPath dir (nm ++ (splitext (stripQuery src)).2) = d :=
            congrArg Prod.fst h1
          have h2 : (fs3, { xs1 with counter := (next_name cfg env.ts tab index xs1.counter).2 })
              = (fs', xs') := congrArg Prod.snd h1
          have hfs3 : fs3 = fs' := congrArg Prod.fst h2
          have hxs : ({ xs1 with counter := (next_name cfg env.ts tab index xs1.counter).2 }
              : XState) = xs' := congrArg Prod.snd h2
          -- unpack copy2
          simp only [copy2] at heq4
          split at heq4
          · exact Except.noConfusion heq4
          · split at heq4
            · rename_i mt hlk
              injection heq4 with h4
              refine ⟨dir, fs1, fs2, xs1, nm, mt, heq1, heq2, heq3, ?_, hd.symm, hlk, ?_⟩
              · rw [← hxs, next_name_counter]
              · rw [← hfs3, ← h4, hd]
            · exact Except.noConfusion heq4

/-- C4 witness: the concrete run copies `/tmp/a.png?x=1` (query
stripped) and the generated destination carries the source's `.png`
extension. -/
theorem C4_witness :
    cpW4 = .ok (cpW4dest, cpW4fs, cpW4xs) ∧
    cpW4dest = "/out/20260101_000000_txt2img_0_1.png".toList ∧
    (∃ dir fs1 fs2 xs1 nm mt,
      resolve_export_dir sampleEnv tabW cfgW4 fsW4 = .ok (dir, fs1) ∧
      maybe_prepare_dir cfgW4 sampleEnv dir fs1 xs0 = .ok (fs2, xs1) ∧
      (next_name cfgW4 sampleEnv.ts tabW 0 xs1.counter).1 = .ok nm ∧
      cpW4xs = { xs1 with counter := xs1.counter + 1 } ∧
      cpW4dest = joinPath dir (nm ++ (splitext (stripQuery srcW4)).2) ∧
      fs2.files.lookup (stripQuery srcW4) = some mt ∧
      cpW4fs = { fs2 with files := ((cpW4dest, mt) :: fs2.files.filter (fun e => e.1 != cpW4dest)) }) := by
  refine ⟨rfl, rfl, ?_⟩
  exact C4_copy_file_dest cfgW4 sampleEnv srcW4 tabW 0 fsW4 xs0 cpW4dest cpW4fs cpW4xs rfl

/-- C4 counterexample: with format configured as JPG and an
extensionless source, the destination name gets an empty extension, not
the configured `.jpg`. -/
theorem C4_counterexample :
    extFn cfgX4 = .ok ".jpg".toList ∧
    (splitext (stripQuery srcX4)).2 = [] ∧
    cpX4 = .ok (cpX4dest, cpX4fs, cpX4xs) ∧
    cpX4dest = "/out/20260101_000000_txt2img_0_1".toList ∧
    (".jpg".toList).isSuffixOf cpX4dest = false :=
  ⟨rfl, rfl, rfl, rfl, rfl⟩

/-! ### JPEG quality (C5) -/

/-- C5 (amended): the JPEG quality the loader produces is exactly the
`int()` coercion of the user value (default 95 when missing or
uncoercible) — an integer, but not clamped to 1..100 — and a JPEG
`export_image` passes exactly that integer to the encoder. -/
theorem C5_quality_passthrough :
    (∀ (env : Env) (user : Cfg),
      (load_config env (.parsed (.vDict user))).lookup "export_jpeg_quality".toList
        = some (.vInt ((pyIntE (cfgGet user "export_jpeg_quality".toList
            (.vInt 95))).toOption.getD 95))) ∧
    (∀ (cfg : Cfg) (env : Env) (img : Img) (tab : Str) (index : Int) (fs : FS)
        (xs : XState) (d : Str) (call : EncodeCall) (fs' : FS) (xs' : XState),
      export_image cfg env img tab index fs xs = .ok (d, call, fs', xs') →
      call.format = "JPEG".toList →
      ∃ q, pyIntE (cfgGet cfg "export_jpeg_quality".toList (.vInt 95)) = .ok q ∧
        call.quality = some q) := by
  constructor
  · intro env user
    have eq5 : (load_config env (.parsed (.vDict user))).lookup "export_jpeg_quality".toList
        = some (coerceKey "export_jpeg_quality".toList (.vInt 95)
            (cfgGet user "export_jpeg_quality".toList (.vInt 95))) := rfl
    rw [eq5, coerceKey_quality]
  · intro cfg env img tab index fs xs d call fs' xs' h hfmt
    simp only [export_image] at h
    split at h
    · exact Except.noConfusion h
    · rename_i dir fs1 heq1
      split at h
      · exact Except.noConfusion h
      · rename_i fs2 xs1 heq2
        split at h
        · exact Except.noConfusion h
        · rename_i nm heq3
          split at h
          · exact Except.noConfusion h
          · rename_i ex heq4
            split at h
            · exact Except.noConfusion h
            · rename_i fmt heq5
              split at h
              · -- JPG branch
                split at h
                · exact Except.noConfusion h
                · rename_i q heq6
                  injection h with h1
                  have h2 : ((⟨"JPEG".toList, some q⟩ : EncodeCall),
                      imgSave env fs2 (joinPath dir (nm ++ ex)),
                      { xs1 with counter := (next_name cfg env.ts tab index xs1.counter).2 })
                      = (call, fs', xs') := congrArg Prod.snd h1
                  have hcall : (⟨"JPEG".toList, some q⟩ : EncodeCall) = call :=
                    congrArg Prod.fst h2
                  exact ⟨q, heq6, by rw [← hcall]⟩
              · -- PNG branch: contradicts the JPEG hypothesis
                injection h with h1
                have h2 : ((⟨"PNG".toList, none⟩ : EncodeCall),
                    imgSave env fs2 (joinPath dir (nm ++ ex)),
                    { xs1 with counter := (next_name cfg env.ts tab index xs1.counter).2 })
                    = (call, fs', xs') := congrArg Prod.snd h1
                have hcall : (⟨"PNG".toList, none⟩ : EncodeCall) = call :=
                  congrArg Prod.fst h2
                rw [← hcall] at hfmt
                exact absurd hfmt (by decide)

/-- C5 witness: quality "88" in the file loads as 88, and a concrete
JPEG export passes the loaded default 95 through to the encoder. -/
theorem C5_witness :
    (load_config sampleEnv (.parsed (.vDict
        [("export_jpeg_quality".toList, .vStr "88".toList)]))).lookup
        "export_jpeg_quality".toList = some (.vInt 88) ∧
    exW5 = .ok (exW5dest, exW5call, exW5fs, exW5xs) ∧
    exW5call.format = "JPEG".toList ∧
    (∃ q, pyIntE (cfgGet cfgX4 "export_jpeg_quality".toList (.vInt 95)) = .ok q ∧
      exW5call.quality = some q) := by
  refine ⟨?_, rfl, rfl, ?_⟩
  · exact C5_quality_passthrough.1 sampleEnv
      [("export_jpeg_quality".toList, .vStr "88".toList)]
  · exact C5_quality_passthrough.2 cfgX4 sampleEnv ⟨"RGB".toList⟩ tabW 1 fsX5 xs0
      exW5dest exW5call exW5fs exW5xs rfl rfl

/-- C5 counterexample: a configured quality of 150 is loaded and passed
to the JPEG encoder unchanged — outside the claimed 1..100 range. -/
theorem C5_counterexample :
    cfgX5.lookup "export_jpeg_quality".toList = some (.vInt 150) ∧
    exX5format = "JPEG".toList ∧
    exX5quality = some 150 ∧
    ¬((1 : Int) ≤ 150 ∧ (150 : Int) ≤ 100) :=
  ⟨rfl, rfl, rfl, by decide⟩

theorem digit_facts : ∀ d : Nat, d < 10 →
    (Nat.digitChar d).isDigit = true ∧ ((Nat.digitChar d) != '_') = true ∧
    isBad (Nat.digitChar d) = false := by decide

theorem digitChar_inj : ∀ a : Nat, a < 10 → ∀ b : Nat, b < 10 →
    Nat.digitChar a = Nat.digitChar b → a = b := by decide

theorem map_digitChar_inj : ∀ (l1 l2 : List Nat), (∀ x ∈ l1, x < 10) →
    (∀ x ∈ l2, x < 10) → l1.map Nat.digitChar = l2.map Nat.digitChar → l1 = l2 := by
  intro l1
  induction l1 with
  | nil =>
      intro l2 _ _ h
      cases l2 with
      | nil => rfl
      | cons b t2 => exact absurd h (by simp)
  | cons a t ih =>
      intro l2 h1 h2 h
      cases l2 with
      | nil => exact absurd h (by simp)
      | cons b t2 =>
          simp only [List.map_cons, List.cons.injEq] at h
          have hab : a = b := digitChar_inj a (h1 a (by simp)) b (h2 b (by simp)) h.1
          rw [hab, ih t2 (fun x hx => h1 x (by simp [hx])) (fun x hx => h2 x (by simp [hx])) h.2]

theorem natDecAux_digits : ∀ (fuel n : Nat), 0 < n → n ≤ fuel →
    natDecAux fuel n = ((Nat.digits 10 n).map Nat.digitChar).reverse := by
  intro fuel
  induction fuel with
  | zero => intro n hn hle; omega
  | succ fuel ih =>
      intro n hn hle
      unfold natDecAux
      by_cases hlt : n < 10
      · rw [if_pos hlt]
        rw [Nat.digits_def' (by norm_num : (1:Nat) < 10) hn,
          Nat.mod_eq_of_lt hlt, Nat.div_eq_of_lt hlt, Nat.digits_zero]
        simp
      · rw [if_neg hlt]
        have h10 : 10 ≤ n := Nat.le_of_not_lt hlt
        have hq : 0 < n / 10 := Nat.div_pos h10 (by norm_num)
        have hqle : n / 10 ≤ fuel := by
          have : n / 10 < n := Nat.div_lt_self hn (by norm_num)
          omega
        rw [ih (n / 10) hq hqle,
          Nat.digits_def' (by norm_num : (1:Nat) < 10) hn]
        simp

theorem natDec_eq (n : Nat) : natDec n = if n = 0 then ['0']
    else ((Nat.digits 10 n).map Nat.digitChar).reverse := by
  by_cases hn : n = 0
  · subst hn
    rfl
  · rw [if_neg hn]
    exact natDecAux_digits (n + 1) n (Nat.pos_of_ne_zero hn) (by omega)

theorem natDec_chars (n : Nat) : ∀ c ∈ natDec n,
    c.isDigit = true ∧ (c != '_') = true ∧ isBad c = false := by
  intro c hc
  rw [natDec_eq] at hc
  by_cases hn : n = 0
  · rw [if_pos hn] at hc
    have : c = '0' := by simpa using hc
    subst this
    decide
  · rw [if_neg hn] at hc
    rw [List.mem_reverse, List.mem_map] at hc
    obtain ⟨d, hd, rfl⟩ := hc
    exact digit_facts d (Nat.digits_lt_base (by norm_num) hd)

theorem natDec_ne_zero_char (n : Nat) (hn : n ≠ 0) :
    ((Nat.digits 10 n).map Nat.digitChar).reverse = ['0'] → False := by
  intro h
  have h2 : (Nat.digits 10 n).map Nat.digitChar = ['0'] := by
    have := congrArg List.reverse h
    simpa using this
  have h3 : ('0' : Char) = Nat.digitChar 0 := rfl
  have h4 : Nat.digits 10 n = [0] := by
    apply map_digitChar_inj _ [0]
      (fun x hx => Nat.digits_lt_base (by norm_num) hx)
      (by intro x hx; simp at hx; omega)
    rw [h2]
    rfl
  have h5 : n = Nat.ofDigits 10 (Nat.digits 10 n) := (Nat.ofDigits_digits 10 n).symm
  rw [h4] at h5
  simp [Nat.ofDigits_cons, Nat.ofDigits_nil] at h5
  exact hn h5

theorem natDec_inj {m n : Nat} (h : natDec m = natDec n) : m = n := by
  rw [natDec_eq, natDec_eq] at h
  by_cases hm : m = 0 <;> by_cases hn : n = 0
  · rw [hm, hn]
  · rw [if_pos hm, if_neg hn] at h
    exact absurd h.symm (fun hc => natDec_ne_zero_char n hn hc)
  · rw [if_neg hm, if_pos hn] at h
    exact absurd h (fun hc => natDec_ne_zero_char m hm hc)
  · rw [if_neg hm, if_neg hn] at h
    have h2 : (Nat.digits 10 m).map Nat.digitChar = (Nat.digits 10 n).map Nat.digitChar :=
      List.reverse_injective h
    have h3 : Nat.digits 10 m = Nat.digits 10 n :=
      map_digitChar_inj _ _ (fun x hx => Nat.digits_lt_base (by norm_num) hx)
        (fun x hx => Nat.digits_lt_base (by norm_num) hx) h2
    calc m = Nat.ofDigits 10 (Nat.digits 10 m) := (Nat.ofDigits_digits 10 m).symm
      _ = Nat.ofDigits 10 (Nat.digits 10 n) := by rw [h3]
      _ = n := Nat.ofDigits_digits 10 n

theorem takeWhile_no_underscore (v : Str) : ∀ u : Str, (∀ c ∈ u, (c != '_') = true) →
    ((u ++ '_' :: v).takeWhile (fun c => c != '_')) = u := by
  intro u
  induction u with
  | nil =>
      intro _
      simp [List.takeWhile_cons]
  | cons c t ih =>
      intro h
      simp only [List.cons_append, List.takeWhile_cons]
      rw [h c (by simp)]
      simp only [if_true]
      rw [ih (fun d hd => h d (by simp [hd]))]

theorem afterLastUnd_append (a b : Str) (h : ∀ c ∈ b, (c != '_') = true) :
    afterLastUnd (a ++ '_' :: b) = b := by
  unfold afterLastUnd
  have hrev : (a ++ '_' :: b).reverse = b.reverse ++ '_' :: a.reverse := by
    simp
  rw [hrev, takeWhile_no_underscore a.reverse b.reverse
    (fun c hc => h c (List.mem_reverse.1 hc)), List.reverse_reverse]

theorem next_name_default_fmt (cfg : Cfg) (ts tab : Str) (index : Int) (c : Nat)
    (h : cfg.lookup "export_naming".toList = some (.vStr defaultNaming)) :
    (next_name cfg ts tab index c).1
      = .ok (sanitize_filename
          (ts ++ '_' :: (tab ++ '_' :: (intRepr index ++ '_' :: (natDec (c + 1) ++ []))))) := by
  unfold next_name cfgGet
  rw [h]
  rfl

theorem afterLast_name (ts tab : Str) (index : Int) (c : Nat) :
    afterLastUnd (sanitize_filename
      (ts ++ '_' :: (tab ++ '_' :: (intRepr index ++ '_' :: (natDec c ++ [])))))
    = natDec c := by
  rw [sanitize_eq_map]
  simp only [List.map_append, List.map_cons, List.append_nil]
  have hu : sanChar '_' = '_' := by decide
  rw [hu]
  rw [map_id_of_fix (natDec c) (fun d hd => by
    simp [sanChar, (natDec_chars c d hd).2.2])]
  have hassoc : (List.map sanChar ts ++ '_' :: (List.map sanChar tab ++ '_' ::
        (List.map sanChar (intRepr index) ++ '_' :: natDec c)))
      = ((List.map sanChar ts ++ '_' :: List.map sanChar tab) ++ '_' ::
          List.map sanChar (intRepr index)) ++ '_' :: natDec c := by
    simp [List.append_assoc]
  rw [hassoc]
  exact afterLastUnd_append _ _ (fun d hd => (natDec_chars c d hd).2.1)

/-- C7 (amended): the in-process counter strictly increases on every
`next_name` call; and with the default naming template (which renders
the counter after the final underscore) calls with different counter
states — regardless of timestamp, context or index — generate
different names, so no export of the same run is overwritten.  With a
user-configured template that omits the counter the names need not be
unique (see the counterexample). -/
theorem C7_counter_and_default_unique :
    (∀ (cfg : Cfg) (ts tab : Str) (index : Int) (c : Nat),
      (next_name cfg ts tab index c).2 = c + 1) ∧
    (∀ (cfg : Cfg) (ts1 ts2 tab1 tab2 : Str) (idx1 idx2 : Int) (c1 c2 : Nat),
      cfg.lookup "export_naming".toList = some (.vStr defaultNaming) →
      c1 ≠ c2 →
      ∀ n1 n2, (next_name cfg ts1 tab1 idx1 c1).1 = .ok n1 →
        (next_name cfg ts2 tab2 idx2 c2).1 = .ok n2 → n1 ≠ n2) := by
  refine ⟨next_name_counter, ?_⟩
  intro cfg ts1 ts2 tab1 tab2 idx1 idx2 c1 c2 h hne n1 n2 h1 h2 heq
  rw [next_name_default_fmt cfg ts1 tab1 idx1 c1 h] at h1
  rw [next_name_default_fmt cfg ts2 tab2 idx2 c2 h] at h2
  injection h1 with e1
  injection h2 with e2
  apply hne
  have a1 := afterLast_name ts1 tab1 idx1 (c1 + 1)
  have a2 := afterLast_name ts2 tab2 idx2 (c2 + 1)
  rw [e1] at a1
  rw [e2] at a2
  have hdec : natDec (c1 + 1) = natDec (c2 + 1) := by
    rw [← a1, ← a2, heq]
  have := natDec_inj hdec
  omega

/-- C7 witness: with the default configuration, one call bumps the
counter from 0 to 1, and the names generated at counter states 0 and 1
differ. -/
theorem C7_witness :
    (next_name (default_config sampleEnv) sampleEnv.ts tabW 0 0).2 = 0 + 1 ∧
    ((next_name (default_config sampleEnv) sampleEnv.ts tabW 0 0).1.toOption.getD []) ≠
      ((next_name (default_config sampleEnv) sampleEnv.ts tabW 0 1).1.toOption.getD []) := by
  constructor
  · exact C7_counter_and_default_unique.1 (default_config sampleEnv) sampleEnv.ts tabW 0 0
  · exact C7_counter_and_default_unique.2 (default_config sampleEnv)
      sampleEnv.ts sampleEnv.ts tabW tabW 0 0 0 1 rfl (by decide) _ _ rfl rfl

/-- C7 counterexample: with a user-configured naming template `"img"`
(no counter placeholder), two successive name-generation calls strictly
increase the counter yet return the identical name, so generated names
are not unique within a process lifetime. -/
theorem C7_counterexample :
    next_name cfgImg sampleEnv.ts tabW 0 0 = (.ok "img".toList, 1) ∧
    next_name cfgImg sampleEnv.ts tabW 0 1 = (.ok "img".toList, 2) :=
  ⟨rfl, rfl⟩

/-! ### Gallery-item classification (C8) -/

theorem pathBranch_none (cfg : Cfg) (env : Env) (p tab : Str) (index : Int)
    (fs : FS) (xs : XState) (req : Bool)
    (hc : ((!req || !p.isEmpty) && fs.exists p) = false) :
    pathBranch cfg env p tab index fs xs req = .ok (none, fs, xs) := by
  unfold pathBranch
  rw [if_neg (fun hcc => by rw [hc] at hcc; exact Bool.noConfusion hcc)]

/-- C8 (amended): a gallery item of unrecognised shape yields `none`
(not an exception) provided that, for a dict, the embedded `name` value
is absent, falsy, or a string; a dict whose `name` is a truthy
non-string instead raises out of `strip_query` (see the
counterexample). -/
theorem C8_unrecognized_yields_none (cfg : Cfg) (env : Env) (item : PyVal)
    (tab : Str) (index : Int) (fs : FS) (xs : XState)
    (hrec : recognizedItem fs item = false) (hok : dictNameOk item) :
    ensure_path_from_gallery_item cfg env item tab index fs xs = .ok (none, fs, xs) := by
  cases item with
  | vNone => rfl
  | vBool b => rfl
  | vInt n => rfl
  | vImage m =>
      exact absurd hrec (by simp [recognizedItem])
  | vList items =>
      cases items with
      | nil => rfl
      | cons hitem t =>
          cases hitem with
          | vImage m => exact absurd hrec (by simp [recognizedItem])
          | vNone => rfl
          | vBool b => rfl
          | vInt n => rfl
          | vStr s => rfl
          | vList ys => rfl
          | vDict ys => rfl
  | vStr s =>
      simp only [recognizedItem] at hrec
      simp only [ensure_path_from_gallery_item]
      apply pathBranch_none
      simp [hrec]
  | vDict d =>
      simp only [ensure_path_from_gallery_item]
      rcases hlk : d.lookup "name".toList with _ | v
      · -- no "name" key: .get gives None, `or` gives ""
        simp only [cfgGetN, hlk, Option.getD]
        show (match pyOr PyVal.vNone (.vStr []) with
          | .vStr s => pathBranch cfg env (stripQuery s) tab index fs xs true
          | _ => Except.error ()) = .ok (none, fs, xs)
        show pathBranch cfg env (stripQuery []) tab index fs xs true = .ok (none, fs, xs)
        exact pathBranch_none cfg env [] tab index fs xs true (by simp)
      · simp only [dictNameOk, hlk] at hok
        simp only [recognizedItem, hlk] at hrec
        rcases hok with hfal | ⟨s, rfl⟩
        · -- falsy name: `or` replaces it with ""
          simp only [cfgGetN, hlk, Option.getD, pyOr, hfal]
          show pathBranch cfg env (stripQuery []) tab index fs xs true = .ok (none, fs, xs)
          exact pathBranch_none cfg env [] tab index fs xs true (by simp)
        · by_cases ht : pyTruthy (.vStr s) = true
          · simp only [cfgGetN, hlk, Option.getD, pyOr, ht, if_true]
            apply pathBranch_none
            simpa using hrec
          · have ht' : pyTruthy (.vStr s) = false := by
              revert ht; cases pyTruthy (.vStr s) <;> simp
            simp only [cfgGetN, hlk, Option.getD, pyOr, ht', Bool.false_eq_true, if_false]
            show pathBranch cfg env (stripQuery []) tab index fs xs true = .ok (none, fs, xs)
            exact pathBranch_none cfg env [] tab index fs xs true (by simp)

/-- C8 witness: an integer gallery item is unrecognised and yields
`none` without touching the state. -/
theorem C8_witness :
    recognizedItem fs0 (.vInt 7) = false ∧
    ensure_path_from_gallery_item (default_config sampleEnv) sampleEnv (.vInt 7)
      tabW 0 fs0 xs0 = .ok (none, fs0, xs0) := by
  refine ⟨rfl, ?_⟩
  exact C8_unrecognized_yields_none (default_config sampleEnv) sampleEnv (.vInt 7)
    tabW 0 fs0 xs0 rfl trivial

/-- C8 counterexample: a dict whose embedded name is the integer 1 is
not a recognised shape, yet the normaliser raises (`strip_query` calls
`.split` on a truthy non-string) instead of returning `none`. -/
theorem C8_counterexample :
    recognizedItem fs0 itemBadName = false ∧
    ensure_path_from_gallery_item (default_config sampleEnv) sampleEnv itemBadName
      tabW 0 fs0 xs0 = .error () :=
  ⟨rfl, rfl⟩

/-! ### Click handler (C9, C10) -/

/-- C9: for every images value, index, tab and every outcome of the
filesystem and process-launch operations, the click handler never
propagates an exception — its result is always `.ok ()` — and when the
body inside the outer `try` raises, the handler still returns with at
least one log line recorded. -/
theorem C9_click_never_raises (cfg : Cfg) (env : Env) (images index tabv : PyVal)
    (fs : FS) (xs : XState) :
    (open_in_editor cfg env images index tabv fs xs).res = .ok () ∧
    ((open_in_editor_inner cfg env images index tabv fs xs).res = .error () →
      (open_in_editor cfg env images index tabv fs xs).logs ≠ []) := by
  simp only [open_in_editor]
  rcases h : open_in_editor_inner cfg env images index tabv fs xs with ⟨res, fs1, xs1, logs⟩
  cases res with
  | ok u =>
      cases u
      constructor
      · rfl
      · intro hc
        exact absurd hc (by simp)
  | error e =>
      cases e
      constructor
      · rfl
      · intro _
        simp

/-- C9 witness: a click whose gallery item raises inside the body (a
dict with an integer name) still returns normally, with a log line. -/
theorem C9_witness :
    (open_in_editor (default_config sampleEnv) sampleEnv (.vList [itemBadName])
      .vNone .vNone fs0 xs0).res = .ok () ∧
    (open_in_editor (default_config sampleEnv) sampleEnv (.vList [itemBadName])
      .vNone .vNone fs0 xs0).logs ≠ [] := by
  have t := C9_click_never_raises (default_config sampleEnv) sampleEnv
    (.vList [itemBadName]) .vNone .vNone fs0 xs0
  exact ⟨t.1, t.2 rfl⟩

/-- C10: for every non-empty images list and every index value, the
index selected by the handler (int() coercion with 0 on failure, then 0
when out of range) is within bounds, so the gallery access
`images[idx]` always succeeds. -/
theorem C10_selected_index_in_bounds (items : List PyVal) (index : PyVal)
    (h : items ≠ []) :
    0 ≤ select_index index items.length ∧
    select_index index items.length < (items.length : Int) ∧
    (items.get? (select_index index items.length).toNat).isSome = true := by
  have hlen : 0 < items.length := List.length_pos.2 h
  unfold select_index
  by_cases hc : ((match pyIntE index with | .ok v => v | .error _ => 0) < 0 ||
      (match pyIntE index with | .ok v => v | .error _ => 0) ≥ (items.length : Int)) = true
  · rw [if_pos hc]
    refine ⟨le_refl 0, by exact_mod_cast hlen, ?_⟩
    rw [List.get?_eq_get (by simpa using hlen)]
    rfl
  · rw [if_neg hc]
    rw [Bool.or_eq_true, decide_eq_true_iff, decide_eq_true_iff] at hc
    push_neg at hc
    obtain ⟨h1, h2⟩ := hc
    refine ⟨by omega, by omega, ?_⟩
    have hb : (match pyIntE index with | .ok v => v | .error _ => 0).toNat < items.length := by
      omega
    rw [List.get?_eq_get hb]
    rfl

/-- C10 witness: a singleton gallery with a garbage index selects index
0, which is in bounds. -/
theorem C10_witness :
    0 ≤ select_index (.vStr "abc".toList) [PyVal.vNone].length ∧
    select_index (.vStr "abc".toList) [PyVal.vNone].length < ([PyVal.vNone].length : Int) ∧
    ([PyVal.vNone].get? (select_index (.vStr "abc".toList) [PyVal.vNone].length).toNat).isSome
      = true :=
  C10_selected_index_in_bounds [PyVal.vNone] (.vStr "abc".toList) (by simp)
